import Mathlib

/-!
# Verification of the solar-tracker control loop

Shallow embedding of `scripts/solar_tracker_keyframe.py`: the `SolarSystem`
class, its tilt/rotation actuator operations, the bright-spot classifier of
`_find_bright_spot`, and the `iterate` driver.  The Blender host (`bpy`) is
modelled by explicit state fields: `hostTilt` mirrors
`bpy.data.objects['motor_tilt'].rotation_euler[1]`, `hostRot` mirrors
`bpy.data.objects['motor_rotate'].rotation_euler[2]`, and the keyframe
timeline is an explicit append-only list.

Angle representation: Python's `math.radians(d)` is `d * pi / 180`.  Since
`pi` is a fixed common factor, host angles are represented exactly by their
coefficient of `pi`: a field value `r : ℚ` denotes the radian angle `r * pi`.
`math_radians d = d / 180` is then exact; the degree measure of a host value
`r` is `r * 180`.
-/

namespace SolarTracker

/-- Python's `math.radians` for a whole-degree angle, in units of `pi`:
`math.radians d = (d / 180) * pi`. -/
def math_radians (d : ℤ) : ℚ := (d : ℚ) / 180

/-- One entry of the host animation timeline: `iterate` inserts, at frame
`frame`, a keyframe on `motor_tilt.rotation_euler[1]` and one on
`motor_rotate.rotation_euler[2]`; each `keyframe_insert` records the current
value of the targeted channel, so one record carries both host angles
(in units of `pi`). -/
structure Keyframe where
  frame : ℤ
  tiltAngle : ℚ
  rotAngle : ℚ
  deriving DecidableEq, Repr

/-- State of the `SolarSystem` object together with the host (Blender) state
it mutates.  Integer fields (`tilt`, `rotation`, `step`, …) are Python ints
in the source; host angles are in units of `pi` (see module docstring). -/
structure SolarSystem where
  tilt : ℤ
  rotation : ℤ
  step : ℤ
  impossible_move : Bool
  dir_x : Option String
  dir_y : Option String
  res_x : ℤ
  res_y : ℤ
  center : ℤ
  t : ℤ
  frame_no : ℤ
  frame_step : ℤ
  hostTilt : ℚ
  hostRot : ℚ
  keyframes : List Keyframe
  deriving DecidableEq, Repr

/-- Constructor `SolarSystem.__init__`: panel parameters, sensor parameters, keyframe
parameters, and the reset of both host axes to the initial angles. -/
def init : SolarSystem where
  tilt := 0
  rotation := 0
  step := 1
  impossible_move := false
  dir_x := none
  dir_y := none
  res_x := 512
  res_y := 512
  center := 512 / 2
  t := 32
  frame_no := 0
  frame_step := 5
  hostTilt := math_radians 0
  hostRot := math_radians 0
  keyframes := []

/-- Method `SolarSystem._increase_tilt`: bump the internal counter by `step`; apply
to the host axis only when the result does not exceed 90, otherwise set the
sticky `impossible_move` flag. -/
def increase_tilt (s : SolarSystem) : SolarSystem :=
  let s1 := { s with tilt := s.tilt + s.step }
  if s1.tilt > 90 then
    { s1 with impossible_move := true }
  else
    { s1 with hostTilt := math_radians s1.tilt }

/-- Method `SolarSystem._decrease_tilt`: symmetric to `increase_tilt` with lower
bound 0. -/
def decrease_tilt (s : SolarSystem) : SolarSystem :=
  let s1 := { s with tilt := s.tilt - s.step }
  if s1.tilt < 0 then
    { s1 with impossible_move := true }
  else
    { s1 with hostTilt := math_radians s1.tilt }

/-- Method `SolarSystem._increase_rotation`: unconditional, always propagated. -/
def increase_rotation (s : SolarSystem) : SolarSystem :=
  let s1 := { s with rotation := s.rotation + s.step }
  { s1 with hostRot := math_radians s1.rotation }

/-- Method `SolarSystem._decrease_rotation`: unconditional, always propagated. -/
def decrease_rotation (s : SolarSystem) : SolarSystem :=
  let s1 := { s with rotation := s.rotation - s.step }
  { s1 with hostRot := math_radians s1.rotation }

/-- Lines 129–144 of `_find_bright_spot`: the move command produced from the
bright-spot location `max_loc`, the frame `center` and the tolerance `t`. -/
def move_command (center t : ℤ) (max_loc : ℤ × ℤ) : String × String :=
  let dir_x0 := if max_loc.1 ≥ center then "RIGHT" else "LEFT"
  let dir_y0 := if max_loc.2 ≥ center then "DOWN" else "UP"
  let dir_x1 := if center - t < max_loc.1 ∧ max_loc.1 < center + t then "CENTER" else dir_x0
  let dir_y1 := if center - t < max_loc.2 ∧ max_loc.2 < center + t then "CENTER" else dir_y0
  (dir_x1, dir_y1)

/-- Method `SolarSystem.iterate`, with the bright-spot pixel location `loc` (the
result of the sensor/`cv2.minMaxLoc` pipeline) passed in explicitly: store
the directions, stop if both are CENTER, otherwise move each axis and, only
in the UP branch, advance `frame_no` by `frame_step` and insert the keyframe
pair at the advanced frame. -/
def iterate (s0 : SolarSystem) (loc : ℤ × ℤ) : SolarSystem :=
  let direction := move_command s0.center s0.t loc
  let s1 := { s0 with dir_x := some direction.1, dir_y := some direction.2 }
  if s1.dir_x = some "CENTER" ∧ s1.dir_y = some "CENTER" then
    s1
  else
    let s2 := if s1.dir_x = some "RIGHT" then decrease_rotation s1 else s1
    let s3 := if s2.dir_x = some "LEFT" then increase_rotation s2 else s2
    let s4 := if s3.dir_y = some "DOWN" then decrease_tilt s3 else s3
    if s4.dir_y = some "UP" then
      let s5 := increase_tilt s4
      let s6 := { s5 with frame_no := s5.frame_no + s5.frame_step }
      { s6 with keyframes := s6.keyframes ++
          [{ frame := s6.frame_no, tiltAngle := s6.hostTilt, rotAngle := s6.hostRot }] }
    else
      s4

/-- The operations a caller can perform on the tracker: the four actuator
moves and one full iteration with a given bright-spot location. -/
inductive Op where
  | inc_tilt : Op
  | dec_tilt : Op
  | inc_rot : Op
  | dec_rot : Op
  | iter : ℤ × ℤ → Op
  deriving DecidableEq, Repr

/-- Apply one operation to a state. -/
def applyOp (s : SolarSystem) : Op → SolarSystem
  | .inc_tilt => increase_tilt s
  | .dec_tilt => decrease_tilt s
  | .inc_rot => increase_rotation s
  | .dec_rot => decrease_rotation s
  | .iter loc => iterate s loc

/-- Run a sequence of operations from a given state. -/
def runFrom (s : SolarSystem) (ops : List Op) : SolarSystem :=
  ops.foldl applyOp s

/-- Run a sequence of operations from the freshly constructed tracker. -/
def run (ops : List Op) : SolarSystem :=
  runFrom init ops

/-- The tilt part of the controller invariant: the fixed step is 1, and as
long as no impossible move has been flagged the internal counter equals the
host tilt angle and lies within the bounds `[0, 90]`. -/
def TiltInv (s : SolarSystem) : Prop :=
  s.step = 1 ∧
  (s.impossible_move = false →
    0 ≤ s.tilt ∧ s.tilt ≤ 90 ∧ s.hostTilt = math_radians s.tilt)

instance (s : SolarSystem) : Decidable (TiltInv s) := by
  unfold TiltInv
  infer_instance

/-- The error of `_find_bright_spot` on a degenerate frame: `cv2` rejects a
zero-area input; the spec names this condition `EmptyFrameError`. -/
inductive EmptyFrameError where
  | emptyFrame : EmptyFrameError
  deriving DecidableEq, Repr

/-- A sensor frame as consumed by `_find_bright_spot`: an RGBA raster of
shape `(height, width, 4)`, with `pixel x y` the `(R, G, B, A)` channel
values at column `x` and row `y`. -/
structure Frame where
  width : ℕ
  height : ℕ
  pixel : ℕ → ℕ → ℕ × ℕ × ℕ × ℕ

/-- The conversion `cv2.cvtColor(..., cv2.COLOR_RGBA2GRAY)` at one pixel: the luminance
`0.299·R + 0.587·G + 0.114·B`, kept exact as a rational. -/
def gray_value (f : Frame) (x y : ℕ) : ℚ :=
  ((299 * (f.pixel x y).1 + 587 * (f.pixel x y).2.1
      + 114 * (f.pixel x y).2.2.1 : ℕ) : ℚ) / 1000

/-- Row-major scan order of a `width × height` raster: all columns of row 0,
then row 1, and so on — the traversal order of `cv2.minMaxLoc`. -/
def scan_order (width height : ℕ) : List (ℕ × ℕ) :=
  (List.range height).flatMap fun y => (List.range width).map fun x => (x, y)

/-- The scan loop of `cv2.minMaxLoc`, restricted to the maximum: walk the
pixels in scan order keeping the first location whose value is strictly
greater than the best so far. -/
def min_max_scan (f : Frame) :
    List (ℕ × ℕ) → Option ((ℕ × ℕ) × ℚ) → Option ((ℕ × ℕ) × ℚ)
  | [], acc => acc
  | p :: rest, none => min_max_scan f rest (some (p, gray_value f p.1 p.2))
  | p :: rest, some (q, v) =>
      min_max_scan f rest
        (if gray_value f p.1 p.2 > v then some (p, gray_value f p.1 p.2) else some (q, v))

/-- The result of `cv2.minMaxLoc` on the grayscale reduction of a frame: the location
`(x, y)` of the global maximum, first in row-major order; `none` on a
zero-area frame (on which `cv2` raises instead of returning). -/
def min_max_loc (f : Frame) : Option (ℕ × ℕ) :=
  (min_max_scan f (scan_order f.width f.height) none).map Prod.fst

/-- The locating part of `_find_bright_spot`: grayscale reduction followed by
`cv2.minMaxLoc`, with the zero-area failure of the `cv2` pipeline surfaced as
`EmptyFrameError` as the spec names it. -/
def find_bright_spot (f : Frame) : Except EmptyFrameError (ℕ × ℕ) :=
  match min_max_loc f with
  | none => .error .emptyFrame
  | some loc => .ok loc

example : (move_command 256 32 (500, 100)) = ("RIGHT", "UP") := by decide
example : (move_command 256 32 (256, 256)) = ("CENTER", "CENTER") := by decide
example : (move_command 256 32 (0, 0)) = ("LEFT", "UP") := by decide
example : (increase_tilt init).tilt = 1 := by decide
example : (run [Op.inc_tilt, Op.dec_tilt]).tilt = 0 := by decide

/-! ## Projection lemmas for the actuator operations -/

@[simp] lemma increase_tilt_step (s : SolarSystem) : (increase_tilt s).step = s.step := by
  simp only [increase_tilt]; split <;> rfl

@[simp] lemma increase_tilt_tilt (s : SolarSystem) : (increase_tilt s).tilt = s.tilt + s.step := by
  simp only [increase_tilt]; split <;> rfl

@[simp] lemma increase_tilt_rotation (s : SolarSystem) :
    (increase_tilt s).rotation = s.rotation := by
  simp only [increase_tilt]; split <;> rfl

@[simp] lemma increase_tilt_hostRot (s : SolarSystem) :
    (increase_tilt s).hostRot = s.hostRot := by
  simp only [increase_tilt]; split <;> rfl

@[simp] lemma increase_tilt_frame_no (s : SolarSystem) :
    (increase_tilt s).frame_no = s.frame_no := by
  simp only [increase_tilt]; split <;> rfl

@[simp] lemma increase_tilt_frame_step (s : SolarSystem) :
    (increase_tilt s).frame_step = s.frame_step := by
  simp only [increase_tilt]; split <;> rfl

@[simp] lemma increase_tilt_keyframes (s : SolarSystem) :
    (increase_tilt s).keyframes = s.keyframes := by
  simp only [increase_tilt]; split <;> rfl

@[simp] lemma increase_tilt_dir_x (s : SolarSystem) : (increase_tilt s).dir_x = s.dir_x := by
  simp only [increase_tilt]; split <;> rfl

@[simp] lemma increase_tilt_dir_y (s : SolarSystem) : (increase_tilt s).dir_y = s.dir_y := by
  simp only [increase_tilt]; split <;> rfl

@[simp] lemma increase_tilt_center (s : SolarSystem) : (increase_tilt s).center = s.center := by
  simp only [increase_tilt]; split <;> rfl

@[simp] lemma increase_tilt_t (s : SolarSystem) : (increase_tilt s).t = s.t := by
  simp only [increase_tilt]; split <;> rfl

@[simp] lemma decrease_tilt_step (s : SolarSystem) : (decrease_tilt s).step = s.step := by
  simp only [decrease_tilt]; split <;> rfl

@[simp] lemma decrease_tilt_tilt (s : SolarSystem) : (decrease_tilt s).tilt = s.tilt - s.step := by
  simp only [decrease_tilt]; split <;> rfl

@[simp] lemma decrease_tilt_rotation (s : SolarSystem) :
    (decrease_tilt s).rotation = s.rotation := by
  simp only [decrease_tilt]; split <;> rfl

@[simp] lemma decrease_tilt_hostRot (s : SolarSystem) :
    (decrease_tilt s).hostRot = s.hostRot := by
  simp only [decrease_tilt]; split <;> rfl

@[simp] lemma decrease_tilt_frame_no (s : SolarSystem) :
    (decrease_tilt s).frame_no = s.frame_no := by
  simp only [decrease_tilt]; split <;> rfl

@[simp] lemma decrease_tilt_frame_step (s : SolarSystem) :
    (decrease_tilt s).frame_step = s.frame_step := by
  simp only [decrease_tilt]; split <;> rfl

@[simp] lemma decrease_tilt_keyframes (s : SolarSystem) :
    (decrease_tilt s).keyframes = s.keyframes := by
  simp only [decrease_tilt]; split <;> rfl

@[simp] lemma decrease_tilt_dir_x (s : SolarSystem) : (decrease_tilt s).dir_x = s.dir_x := by
  simp only [decrease_tilt]; split <;> rfl

@[simp] lemma decrease_tilt_dir_y (s : SolarSystem) : (decrease_tilt s).dir_y = s.dir_y := by
  simp only [decrease_tilt]; split <;> rfl

@[simp] lemma decrease_tilt_center (s : SolarSystem) : (decrease_tilt s).center = s.center := by
  simp only [decrease_tilt]; split <;> rfl

@[simp] lemma decrease_tilt_t (s : SolarSystem) : (decrease_tilt s).t = s.t := by
  simp only [decrease_tilt]; split <;> rfl

@[simp] lemma increase_rotation_def (s : SolarSystem) :
    increase_rotation s = { s with rotation := s.rotation + s.step,
                                   hostRot := math_radians (s.rotation + s.step) } := rfl

@[simp] lemma decrease_rotation_def (s : SolarSystem) :
    decrease_rotation s = { s with rotation := s.rotation - s.step,
                                   hostRot := math_radians (s.rotation - s.step) } := rfl

lemma increase_tilt_impossible (s : SolarSystem) (h : s.tilt + s.step > 90) :
    increase_tilt s = { s with tilt := s.tilt + s.step, impossible_move := true } := by
  simp only [increase_tilt]
  split
  · rfl
  · omega

lemma increase_tilt_ok (s : SolarSystem) (h : s.tilt + s.step ≤ 90) :
    increase_tilt s = { s with tilt := s.tilt + s.step,
                               hostTilt := math_radians (s.tilt + s.step) } := by
  simp only [increase_tilt]
  split
  · omega
  · rfl

lemma decrease_tilt_impossible (s : SolarSystem) (h : s.tilt - s.step < 0) :
    decrease_tilt s = { s with tilt := s.tilt - s.step, impossible_move := true } := by
  simp only [decrease_tilt]
  split
  · rfl
  · omega

lemma decrease_tilt_ok (s : SolarSystem) (h : 0 ≤ s.tilt - s.step) :
    decrease_tilt s = { s with tilt := s.tilt - s.step,
                               hostTilt := math_radians (s.tilt - s.step) } := by
  simp only [decrease_tilt]
  split
  · omega
  · rfl

/-! ## Further projection lemmas and iterate case analysis -/

@[simp] lemma increase_tilt_impossible_move (s : SolarSystem) :
    (increase_tilt s).impossible_move = (decide (90 < s.tilt + s.step) || s.impossible_move) := by
  simp only [increase_tilt]
  split
  · next h => simp at h ⊢; omega
  · next h => simp at h ⊢; intro hc; omega

@[simp] lemma decrease_tilt_impossible_move (s : SolarSystem) :
    (decrease_tilt s).impossible_move = (decide (s.tilt - s.step < 0) || s.impossible_move) := by
  simp only [decrease_tilt]
  split
  · next h => simp at h ⊢; omega
  · next h => simp at h ⊢; intro hc; omega

/-- The horizontal move command is one of the three literals. -/
lemma move_command_fst (c t : ℤ) (loc : ℤ × ℤ) :
    (move_command c t loc).1 = "RIGHT" ∨ (move_command c t loc).1 = "LEFT" ∨
      (move_command c t loc).1 = "CENTER" := by
  simp only [move_command]
  split_ifs <;> simp

/-- The vertical move command is one of the three literals. -/
lemma move_command_snd (c t : ℤ) (loc : ℤ × ℤ) :
    (move_command c t loc).2 = "DOWN" ∨ (move_command c t loc).2 = "UP" ∨
      (move_command c t loc).2 = "CENTER" := by
  simp only [move_command]
  split_ifs <;> simp

lemma iterate_impossible_sticky (s : SolarSystem) (loc : ℤ × ℤ)
    (h : s.impossible_move = true) : (iterate s loc).impossible_move = true := by
  rcases move_command_fst s.center s.t loc with h1 | h1 | h1 <;>
    rcases move_command_snd s.center s.t loc with h2 | h2 | h2 <;>
      simp [iterate, h1, h2, h]

/-! ## C1: the directional classifier rule -/

/-- C1: for every bright-spot coordinate `(x, y)`, frame center and tolerance
`t > 0`, the classifier computes horizontal RIGHT iff `x ≥ center` (else
LEFT), overridden to CENTER exactly when `center − t < x < center + t`, and
symmetrically vertical DOWN/UP with CENTER override; strictly inside the dead
zone on both axes the result is (CENTER, CENTER); a coordinate exactly at
`center + t` stays RIGHT and one exactly at `center − t` stays LEFT. -/
theorem C1_classifier_rule (center t x y : ℤ) (ht : 0 < t) :
    move_command center t (x, y) =
      ((if center - t < x ∧ x < center + t then "CENTER"
        else if x ≥ center then "RIGHT" else "LEFT"),
       (if center - t < y ∧ y < center + t then "CENTER"
        else if y ≥ center then "DOWN" else "UP"))
    ∧ (center - t < x → x < center + t → center - t < y → y < center + t →
        move_command center t (x, y) = ("CENTER", "CENTER"))
    ∧ (move_command center t (center + t, y)).1 = "RIGHT"
    ∧ (move_command center t (center - t, y)).1 = "LEFT" := by
  refine ⟨?_, ?_, ?_, ?_⟩
  · rfl
  · intro h1 h2 h3 h4
    simp only [move_command]
    split_ifs <;> first | rfl | omega
  · simp only [move_command]
    split_ifs <;> first | rfl | omega
  · simp only [move_command]
    split_ifs <;> first | rfl | omega

/-- Witness for C1 at the concrete frame geometry of the code
(center 256, tolerance 32): the point at `x = 256 + 32` classifies RIGHT. -/
theorem C1_classifier_rule_witness :
    (move_command 256 32 (256 + 32, 100)).1 = "RIGHT" :=
  (C1_classifier_rule 256 32 288 100 (by decide)).2.2.1

/-! ## C3: boundary-violating tilt moves -/

/-- C3: when `tilt + step` would exceed 90, `increase_tilt` sets the
`impossible_move` flag, leaves the host tilt angle unchanged, and still
increments the internal counter by `step`; `decrease_tilt` is symmetric at
the lower bound 0. -/
theorem C3_boundary_tilt (s : SolarSystem) :
    (s.tilt + s.step > 90 →
      (increase_tilt s).impossible_move = true ∧
      (increase_tilt s).hostTilt = s.hostTilt ∧
      (increase_tilt s).tilt = s.tilt + s.step)
    ∧ (s.tilt - s.step < 0 →
      (decrease_tilt s).impossible_move = true ∧
      (decrease_tilt s).hostTilt = s.hostTilt ∧
      (decrease_tilt s).tilt = s.tilt - s.step) := by
  constructor
  · intro h
    rw [increase_tilt_impossible s h]
    exact ⟨rfl, rfl, rfl⟩
  · intro h
    rw [decrease_tilt_impossible s h]
    exact ⟨rfl, rfl, rfl⟩

/-- Witness for C3 at the spec's scenario: tilt 90, `increase_tilt` flags the
move impossible, the host stays at the previous angle, the counter reads 91. -/
theorem C3_boundary_tilt_witness :
    (increase_tilt { init with tilt := 90 }).impossible_move = true ∧
    (increase_tilt { init with tilt := 90 }).hostTilt = init.hostTilt ∧
    (increase_tilt { init with tilt := 90 }).tilt = 91 := by
  have h := (C3_boundary_tilt { init with tilt := 90 }).1 (by decide)
  exact ⟨h.1, h.2.1, by rw [h.2.2]; rfl⟩

/-! ## C7: unconditional rotation, radian propagation on success -/

/-- C7: `increase_rotation`/`decrease_rotation` are applied unconditionally,
changing `rotation` by exactly `±step` with no bound check, and every
successful tilt or rotation change propagates the new angle converted to
radians (`math_radians`) to the corresponding host axis. -/
theorem C7_rotation_unconditional (s : SolarSystem) :
    increase_rotation s = { s with rotation := s.rotation + s.step,
                                   hostRot := math_radians (s.rotation + s.step) }
    ∧ decrease_rotation s = { s with rotation := s.rotation - s.step,
                                     hostRot := math_radians (s.rotation - s.step) }
    ∧ (s.tilt + s.step ≤ 90 →
        increase_tilt s = { s with tilt := s.tilt + s.step,
                                   hostTilt := math_radians (s.tilt + s.step) })
    ∧ (0 ≤ s.tilt - s.step →
        decrease_tilt s = { s with tilt := s.tilt - s.step,
                                   hostTilt := math_radians (s.tilt - s.step) }) :=
  ⟨rfl, rfl, increase_tilt_ok s, decrease_tilt_ok s⟩

/-- Witness for C7 on concrete states: one rotation step and two in-bounds
tilt steps propagate the expected radian values. -/
theorem C7_rotation_unconditional_witness :
    (increase_rotation init).hostRot = math_radians 1 ∧
    (increase_tilt init).hostTilt = math_radians 1 ∧
    (decrease_tilt { init with tilt := 5 }).hostTilt = math_radians 4 := by
  have h := C7_rotation_unconditional init
  have h5 := C7_rotation_unconditional { init with tilt := 5 }
  refine ⟨?_, ?_, ?_⟩
  · rw [h.1]; rfl
  · rw [h.2.2.1 (by decide)]; rfl
  · rw [h5.2.2.2 (by decide)]; rfl

/-! ## C9: the impossible-move flag is sticky -/

lemma applyOp_impossible_sticky (s : SolarSystem) (op : Op)
    (h : s.impossible_move = true) : (applyOp s op).impossible_move = true := by
  cases op with
  | inc_tilt => simp [applyOp, h]
  | dec_tilt => simp [applyOp, h]
  | inc_rot => simp [applyOp, h]
  | dec_rot => simp [applyOp, h]
  | iter loc => exact iterate_impossible_sticky s loc h

lemma runFrom_impossible_sticky (ops : List Op) :
    ∀ s : SolarSystem, s.impossible_move = true →
      (runFrom s ops).impossible_move = true := by
  induction ops with
  | nil => intro s h; exact h
  | cons op rest ih =>
      intro s h
      exact ih (applyOp s op) (applyOp_impossible_sticky s op h)

/-- C9: `impossible_move` starts false and, once set, is never reset by any
operation of the tracker — not by a tilt move in the opposing direction, not
by a rotation move, not by an iteration — hence it stays true along every
continuation of the run. -/
theorem C9_impossible_move_sticky :
    init.impossible_move = false
    ∧ (∀ (s : SolarSystem) (op : Op), s.impossible_move = true →
        (applyOp s op).impossible_move = true)
    ∧ (∀ (s : SolarSystem) (ops : List Op), s.impossible_move = true →
        (runFrom s ops).impossible_move = true) :=
  ⟨rfl, applyOp_impossible_sticky, fun s ops h => runFrom_impossible_sticky ops s h⟩

/-- Witness for C9: a flagged state stays flagged through an opposing tilt
move, a rotation move and a full iteration. -/
theorem C9_impossible_move_sticky_witness :
    (runFrom { init with impossible_move := true }
      [Op.dec_tilt, Op.inc_rot, Op.iter (500, 100)]).impossible_move = true :=
  C9_impossible_move_sticky.2.2 { init with impossible_move := true }
    [Op.dec_tilt, Op.inc_rot, Op.iter (500, 100)] rfl

/-! ## C8: frame_no is monotonically non-decreasing -/

lemma iterate_frame_step (s : SolarSystem) (loc : ℤ × ℤ) :
    (iterate s loc).frame_step = s.frame_step := by
  rcases move_command_fst s.center s.t loc with h1 | h1 | h1 <;>
    rcases move_command_snd s.center s.t loc with h2 | h2 | h2 <;>
      simp [iterate, h1, h2]

lemma applyOp_frame_step (s : SolarSystem) (op : Op) :
    (applyOp s op).frame_step = s.frame_step := by
  cases op with
  | iter loc => exact iterate_frame_step s loc
  | _ => simp [applyOp]

lemma iterate_frame_no (s : SolarSystem) (loc : ℤ × ℤ) :
    (iterate s loc).frame_no = s.frame_no ∨
      (iterate s loc).frame_no = s.frame_no + s.frame_step := by
  rcases move_command_fst s.center s.t loc with h1 | h1 | h1 <;>
    rcases move_command_snd s.center s.t loc with h2 | h2 | h2 <;>
      simp [iterate, h1, h2]

lemma applyOp_frame_no (s : SolarSystem) (op : Op) :
    (applyOp s op).frame_no = s.frame_no ∨
      (applyOp s op).frame_no = s.frame_no + s.frame_step := by
  cases op with
  | iter loc => exact iterate_frame_no s loc
  | _ => simp [applyOp]

lemma runFrom_frame_step (ops : List Op) :
    ∀ s : SolarSystem, (runFrom s ops).frame_step = s.frame_step := by
  induction ops with
  | nil => intro s; rfl
  | cons op rest ih =>
      intro s
      rw [runFrom, List.foldl_cons, ← runFrom, ih (applyOp s op), applyOp_frame_step]

lemma run_frame_step (ops : List Op) : (run ops).frame_step = 5 :=
  runFrom_frame_step ops init

lemma run_append_single (ops : List Op) (op : Op) :
    run (ops ++ [op]) = applyOp (run ops) op := by
  simp [run, runFrom, List.foldl_append]

lemma run_frame_no_nonneg (ops : List Op) : 0 ≤ (run ops).frame_no := by
  induction ops using List.reverseRecOn with
  | nil => exact le_refl 0
  | append_singleton rest op ih =>
      rw [run_append_single]
      rcases applyOp_frame_no (run rest) op with h | h
      · rw [h]; exact ih
      · rw [h, run_frame_step]
        omega

/-- C8: `frame_no` starts at 0 and is monotonically non-decreasing: every
operation either leaves it unchanged or advances it by the positive fixed
stride 5, so it stays non-negative along every run. -/
theorem C8_frame_no_monotone :
    init.frame_no = 0
    ∧ (∀ (ops : List Op) (op : Op),
        (run (ops ++ [op])).frame_no = (run ops).frame_no ∨
        (run (ops ++ [op])).frame_no = (run ops).frame_no + 5)
    ∧ (∀ (ops : List Op) (op : Op),
        (run ops).frame_no ≤ (run (ops ++ [op])).frame_no)
    ∧ (∀ ops : List Op, 0 ≤ (run ops).frame_no) := by
  have hstep : ∀ (ops : List Op) (op : Op),
      (run (ops ++ [op])).frame_no = (run ops).frame_no ∨
      (run (ops ++ [op])).frame_no = (run ops).frame_no + 5 := by
    intro ops op
    rw [run_append_single]
    rcases applyOp_frame_no (run ops) op with h | h
    · exact Or.inl h
    · right; rw [h, run_frame_step]
  refine ⟨rfl, hstep, ?_, run_frame_no_nonneg⟩
  intro ops op
  rcases hstep ops op with h | h <;> omega

/-! ## C2 / C10: host tilt bounds and their violation -/

@[simp] lemma increase_tilt_hostTilt (s : SolarSystem) :
    (increase_tilt s).hostTilt =
      if 90 < s.tilt + s.step then s.hostTilt else math_radians (s.tilt + s.step) := by
  by_cases hc : 90 < s.tilt + s.step
  · rw [increase_tilt_impossible s hc, if_pos hc]
  · push_neg at hc
    rw [increase_tilt_ok s hc, if_neg (by omega)]

@[simp] lemma decrease_tilt_hostTilt (s : SolarSystem) :
    (decrease_tilt s).hostTilt =
      if s.tilt - s.step < 0 then s.hostTilt else math_radians (s.tilt - s.step) := by
  by_cases hc : s.tilt - s.step < 0
  · rw [decrease_tilt_impossible s hc, if_pos hc]
  · push_neg at hc
    rw [decrease_tilt_ok s hc, if_neg (by omega)]

lemma tiltInv_increase_tilt {s : SolarSystem} (h : TiltInv s) :
    TiltInv (increase_tilt s) := by
  obtain ⟨hstep, hb⟩ := h
  unfold TiltInv
  by_cases hc : 90 < s.tilt + s.step
  · rw [increase_tilt_impossible s hc]
    refine ⟨hstep, fun him => absurd him (by simp)⟩
  · push_neg at hc
    rw [increase_tilt_ok s hc]
    refine ⟨hstep, fun him => ?_⟩
    obtain ⟨h0, _, _⟩ := hb him
    exact ⟨by dsimp; omega, by dsimp; omega, rfl⟩

lemma tiltInv_decrease_tilt {s : SolarSystem} (h : TiltInv s) :
    TiltInv (decrease_tilt s) := by
  obtain ⟨hstep, hb⟩ := h
  unfold TiltInv
  by_cases hc : s.tilt - s.step < 0
  · rw [decrease_tilt_impossible s hc]
    refine ⟨hstep, fun him => absurd him (by simp)⟩
  · push_neg at hc
    rw [decrease_tilt_ok s hc]
    refine ⟨hstep, fun him => ?_⟩
    obtain ⟨_, h90, _⟩ := hb him
    exact ⟨by dsimp; omega, by dsimp; omega, rfl⟩

lemma tiltInv_congr {s s' : SolarSystem} (hstep : s'.step = s.step)
    (ht : s'.tilt = s.tilt) (hh : s'.hostTilt = s.hostTilt)
    (hi : s'.impossible_move = s.impossible_move) (h : TiltInv s) : TiltInv s' := by
  unfold TiltInv at h ⊢
  rw [hstep, ht, hh, hi]
  exact h

lemma iterate_tilt_fields (s : SolarSystem) (loc : ℤ × ℤ) :
    (iterate s loc).step = s.step ∧
    ( ((iterate s loc).tilt = s.tilt ∧ (iterate s loc).hostTilt = s.hostTilt ∧
        (iterate s loc).impossible_move = s.impossible_move)
    ∨ ((iterate s loc).tilt = (increase_tilt s).tilt ∧
        (iterate s loc).hostTilt = (increase_tilt s).hostTilt ∧
        (iterate s loc).impossible_move = (increase_tilt s).impossible_move)
    ∨ ((iterate s loc).tilt = (decrease_tilt s).tilt ∧
        (iterate s loc).hostTilt = (decrease_tilt s).hostTilt ∧
        (iterate s loc).impossible_move = (decrease_tilt s).impossible_move)) := by
  rcases move_command_fst s.center s.t loc with h1 | h1 | h1 <;>
    rcases move_command_snd s.center s.t loc with h2 | h2 | h2 <;>
      simp [iterate, h1, h2]

lemma tiltInv_iterate {s : SolarSystem} (loc : ℤ × ℤ) (h : TiltInv s) :
    TiltInv (iterate s loc) := by
  obtain ⟨hstep, hrest⟩ := iterate_tilt_fields s loc
  rcases hrest with ⟨a, b, c⟩ | ⟨a, b, c⟩ | ⟨a, b, c⟩
  · exact tiltInv_congr hstep a b c h
  · exact tiltInv_congr (by rw [hstep, increase_tilt_step]) a b c (tiltInv_increase_tilt h)
  · exact tiltInv_congr (by rw [hstep, decrease_tilt_step]) a b c (tiltInv_decrease_tilt h)

lemma tiltInv_applyOp {s : SolarSystem} (op : Op) (h : TiltInv s) :
    TiltInv (applyOp s op) := by
  cases op with
  | inc_tilt => exact tiltInv_increase_tilt h
  | dec_tilt => exact tiltInv_decrease_tilt h
  | inc_rot => exact h
  | dec_rot => exact h
  | iter loc => exact tiltInv_iterate loc h

lemma tiltInv_init : TiltInv init :=
  ⟨rfl, fun _ => ⟨le_refl 0, by decide, rfl⟩⟩

lemma tiltInv_run (ops : List Op) : TiltInv (run ops) := by
  have : ∀ (l : List Op) (s : SolarSystem), TiltInv s → TiltInv (runFrom s l) := by
    intro l
    induction l with
    | nil => intro s h; exact h
    | cons op rest ih => intro s h; exact ih (applyOp s op) (tiltInv_applyOp op h)
  exact this ops init tiltInv_init

lemma runFrom_inc_rot (k : ℕ) : ∀ s : SolarSystem, s.step = 1 →
    s.hostRot = math_radians s.rotation →
    (runFrom s (List.replicate k Op.inc_rot)).rotation = s.rotation + k ∧
    (runFrom s (List.replicate k Op.inc_rot)).hostRot = math_radians (s.rotation + k) := by
  induction k with
  | zero =>
      intro s h1 h2
      refine ⟨by simp [runFrom], ?_⟩
      rw [show (runFrom s (List.replicate 0 Op.inc_rot)) = s from rfl, h2]
      norm_num
  | succ n ih =>
      intro s h1 h2
      rw [List.replicate_succ, runFrom, List.foldl_cons, ← runFrom]
      obtain ⟨ha, hb⟩ := ih (applyOp s Op.inc_rot) (by simp [applyOp, h1]) (by simp [applyOp])
      have hrot : (applyOp s Op.inc_rot).rotation = s.rotation + 1 := by
        simp [applyOp, h1]
      constructor
      · rw [ha, hrot]; push_cast; ring
      · rw [hb, hrot]; congr 1; push_cast; ring

lemma runFrom_dec_rot (k : ℕ) : ∀ s : SolarSystem, s.step = 1 →
    s.hostRot = math_radians s.rotation →
    (runFrom s (List.replicate k Op.dec_rot)).rotation = s.rotation - k ∧
    (runFrom s (List.replicate k Op.dec_rot)).hostRot = math_radians (s.rotation - k) := by
  induction k with
  | zero =>
      intro s h1 h2
      refine ⟨by simp [runFrom], ?_⟩
      rw [show (runFrom s (List.replicate 0 Op.dec_rot)) = s from rfl, h2]
      norm_num
  | succ n ih =>
      intro s h1 h2
      rw [List.replicate_succ, runFrom, List.foldl_cons, ← runFrom]
      obtain ⟨ha, hb⟩ := ih (applyOp s Op.dec_rot) (by simp [applyOp, h1]) (by simp [applyOp])
      have hrot : (applyOp s Op.dec_rot).rotation = s.rotation - 1 := by
        simp [applyOp, h1]
      constructor
      · rw [ha, hrot]; push_cast; ring
      · rw [hb, hrot]; congr 1; push_cast; ring

set_option maxRecDepth 10000 in
/-- C2 (as stated) is false: after driving the internal tilt counter to 92 by
repeated `increase_tilt` at the upper boundary, a single `decrease_tilt`
propagates 91 degrees to the host tilt axis, outside `[0, 90]`. -/
theorem C2_counterexample :
    (run (List.replicate 92 Op.inc_tilt ++ [Op.dec_tilt])).hostTilt * 180 = 91 ∧
    ¬ (∀ ops : List Op,
        0 ≤ (run ops).hostTilt * 180 ∧ (run ops).hostTilt * 180 ≤ 90) := by
  have hval : (run (List.replicate 92 Op.inc_tilt ++ [Op.dec_tilt])).hostTilt =
      math_radians 91 := rfl
  have h91 : (run (List.replicate 92 Op.inc_tilt ++ [Op.dec_tilt])).hostTilt * 180 = 91 := by
    rw [hval, math_radians]
    norm_num
  refine ⟨h91, fun hall => ?_⟩
  have := (hall (List.replicate 92 Op.inc_tilt ++ [Op.dec_tilt])).2
  rw [h91] at this
  norm_num at this

/-- C2, amended: the host tilt angle stays within `[0, 90]` degrees in every
reachable state in which no impossible move has been flagged (the condition
the counterexample forces); host rotation is unbounded — every integer
number of degrees is reached by some sequence of calls. -/
theorem C2_host_tilt_amended :
    (∀ ops : List Op, (run ops).impossible_move = false →
        0 ≤ (run ops).hostTilt * 180 ∧ (run ops).hostTilt * 180 ≤ 90)
    ∧ (∀ n : ℤ, ∃ ops : List Op, (run ops).hostRot * 180 = (n : ℚ)) := by
  constructor
  · intro ops him
    obtain ⟨-, hb⟩ := tiltInv_run ops
    obtain ⟨h0, h90, hh⟩ := hb him
    rw [hh, math_radians, div_mul_cancel₀ _ (by norm_num : (180 : ℚ) ≠ 0)]
    constructor <;> exact_mod_cast by assumption
  · intro n
    rcases le_or_lt 0 n with hn | hn
    · refine ⟨List.replicate n.toNat Op.inc_rot, ?_⟩
      obtain ⟨-, hb⟩ := runFrom_inc_rot n.toNat init rfl rfl
      have hz : init.rotation + (n.toNat : ℤ) = n := by
        show (0 : ℤ) + ↑n.toNat = n
        omega
      rw [run, hb, hz, math_radians, div_mul_cancel₀ _ (by norm_num : (180 : ℚ) ≠ 0)]
    · refine ⟨List.replicate (-n).toNat Op.dec_rot, ?_⟩
      obtain ⟨-, hb⟩ := runFrom_dec_rot (-n).toNat init rfl rfl
      have hz : init.rotation - ((-n).toNat : ℤ) = n := by
        show (0 : ℤ) - ↑(-n).toNat = n
        omega
      rw [run, hb, hz, math_radians, div_mul_cancel₀ _ (by norm_num : (180 : ℚ) ≠ 0)]

/-- Witness for the amended C2: a run that tilts up twice and rotates once
has no flagged move, and its host tilt (2 degrees) is within bounds. -/
theorem C2_host_tilt_amended_witness :
    0 ≤ (run [Op.inc_tilt, Op.inc_tilt, Op.inc_rot]).hostTilt * 180 ∧
    (run [Op.inc_tilt, Op.inc_tilt, Op.inc_rot]).hostTilt * 180 ≤ 90 :=
  C2_host_tilt_amended.1 [Op.inc_tilt, Op.inc_tilt, Op.inc_rot] rfl

set_option maxRecDepth 10000 in
/-- C10: `decrease_tilt` checks only the lower bound — whenever
`tilt − step ≥ 0` the decremented value is propagated to the host regardless
of the upper bound — and from the state reached by 92 `increase_tilt` calls
(internal counter 92, host still at 90) one `decrease_tilt` propagates
91 > 90 degrees to the host tilt axis. -/
theorem C10_decrease_tilt_unchecked :
    (∀ s : SolarSystem, 0 ≤ s.tilt - s.step →
        decrease_tilt s = { s with tilt := s.tilt - s.step,
                                   hostTilt := math_radians (s.tilt - s.step) })
    ∧ (run (List.replicate 92 Op.inc_tilt)).tilt = 92
    ∧ (run (List.replicate 92 Op.inc_tilt)).hostTilt * 180 = 90
    ∧ (run (List.replicate 92 Op.inc_tilt ++ [Op.dec_tilt])).hostTilt * 180 > 90 := by
  have h90 : (run (List.replicate 92 Op.inc_tilt)).hostTilt = math_radians 90 := rfl
  have h91 : (run (List.replicate 92 Op.inc_tilt ++ [Op.dec_tilt])).hostTilt =
      math_radians 91 := rfl
  refine ⟨fun s h => decrease_tilt_ok s h, by rfl, ?_, ?_⟩
  · rw [h90, math_radians]
    norm_num
  · rw [h91, math_radians]
    norm_num

/-- Witness for C10: the unconditional lower-bound-only update at a concrete
in-range state. -/
theorem C10_decrease_tilt_unchecked_witness :
    decrease_tilt { init with tilt := 7 } =
      { { init with tilt := 7 } with tilt := 6, hostTilt := math_radians 6 } := by
  have h := C10_decrease_tilt_unchecked.1 { init with tilt := 7 } (by decide)
  rw [h]; rfl

/-! ## C5: a centered classification moves nothing and is idempotent -/

/-- C5: when the bright spot classifies as (CENTER, CENTER), the iteration
only stores the directions — internal angles, host angles, keyframes and
frame counter are all untouched — and, the spot staying put, a second
iteration is the identity on the result. -/
theorem C5_center_idempotent (s : SolarSystem) (loc : ℤ × ℤ)
    (h : move_command s.center s.t loc = ("CENTER", "CENTER")) :
    iterate s loc = { s with dir_x := some "CENTER", dir_y := some "CENTER" }
    ∧ (iterate s loc).tilt = s.tilt ∧ (iterate s loc).rotation = s.rotation
    ∧ (iterate s loc).hostTilt = s.hostTilt ∧ (iterate s loc).hostRot = s.hostRot
    ∧ (iterate s loc).keyframes = s.keyframes ∧ (iterate s loc).frame_no = s.frame_no
    ∧ iterate (iterate s loc) loc = iterate s loc := by
  have h1 : iterate s loc = { s with dir_x := some "CENTER", dir_y := some "CENTER" } := by
    simp [iterate, h]
  refine ⟨h1, ?_, ?_, ?_, ?_, ?_, ?_, ?_⟩ <;> rw [h1]
  simp [iterate, h]

/-- Witness for C5 at the spec's scenario: frame 512×512, center (256, 256),
tolerance 32, spot exactly at the center. -/
theorem C5_center_idempotent_witness :
    iterate init (256, 256) = { init with dir_x := some "CENTER", dir_y := some "CENTER" }
    ∧ iterate (iterate init (256, 256)) (256, 256) = iterate init (256, 256) := by
  have h := C5_center_idempotent init (256, 256) (by decide)
  exact ⟨h.1, h.2.2.2.2.2.2.2⟩

/-! ## C4: keyframes are recorded only on the UP branch -/

/-- C4, amended: an iteration appends a keyframe record (capturing both host
angles) exactly when the vertical direction is UP; in that branch
`frame_no` is first advanced by the stride `frame_step` and the keyframe
captures the advanced frame number (not the pre-advance one); for DOWN,
horizontal-only moves and the converged case, neither the timeline nor
`frame_no` changes. -/
theorem C4_keyframe_iff_up (s : SolarSystem) (loc : ℤ × ℤ) :
    ((move_command s.center s.t loc).2 = "UP" →
      (iterate s loc).frame_no = s.frame_no + s.frame_step ∧
      (iterate s loc).keyframes = s.keyframes ++
        [{ frame := s.frame_no + s.frame_step,
           tiltAngle := (iterate s loc).hostTilt,
           rotAngle := (iterate s loc).hostRot }])
    ∧ ((move_command s.center s.t loc).2 ≠ "UP" →
      (iterate s loc).frame_no = s.frame_no ∧
      (iterate s loc).keyframes = s.keyframes) := by
  constructor
  · intro h2
    rcases move_command_fst s.center s.t loc with h1 | h1 | h1 <;>
      simp [iterate, h1, h2]
  · intro hne
    rcases move_command_fst s.center s.t loc with h1 | h1 | h1 <;>
      rcases move_command_snd s.center s.t loc with h2 | h2 | h2 <;>
        first
          | exact absurd h2 hne
          | simp [iterate, h1, h2]

/-- C4 as stated is false: with `frame_no = 0` and a spot classifying
(CENTER, UP), the recorded keyframe carries frame number 5 — the advanced
value — not the pre-advance current frame number 0. -/
theorem C4_counterexample :
    (iterate init (256, 0)).keyframes.map Keyframe.frame = [init.frame_no + 5]
    ∧ init.frame_no = 0
    ∧ (iterate init (256, 0)).keyframes.map Keyframe.frame ≠ [init.frame_no] := by
  refine ⟨rfl, rfl, ?_⟩
  intro hcon
  have : (5 : ℤ) = 0 := by
    have h5 : (iterate init (256, 0)).keyframes.map Keyframe.frame = [(5 : ℤ)] := rfl
    rw [h5] at hcon
    exact List.head_eq_of_cons_eq hcon
  norm_num at this

/-- Witness for the amended C4: the same (CENTER, UP) input appends exactly
one keyframe at the advanced frame number 5. -/
theorem C4_keyframe_iff_up_witness :
    (iterate init (256, 0)).frame_no = init.frame_no + init.frame_step ∧
    (iterate init (256, 0)).keyframes = init.keyframes ++
      [{ frame := init.frame_no + init.frame_step,
         tiltAngle := (iterate init (256, 0)).hostTilt,
         rotAngle := (iterate init (256, 0)).hostRot }] :=
  (C4_keyframe_iff_up init (256, 0)).1 (by decide)

/-! ## C6: the locator fails exactly on zero-area frames -/

lemma min_max_scan_isSome (f : Frame) (l : List (ℕ × ℕ)) :
    ∀ r, (min_max_scan f l (some r)).isSome := by
  induction l with
  | nil => intro r; rfl
  | cons p rest ih =>
      intro r
      obtain ⟨q, v⟩ := r
      simp only [min_max_scan]
      split
      · exact ih _
      · exact ih _

lemma min_max_scan_none_iff (f : Frame) (l : List (ℕ × ℕ)) :
    min_max_scan f l none = none ↔ l = [] := by
  cases l with
  | nil => simp [min_max_scan]
  | cons p rest =>
      simp only [min_max_scan]
      constructor
      · intro h
        have hs := min_max_scan_isSome f rest (p, gray_value f p.1 p.2)
        rw [h] at hs
        cases hs
      · intro h
        exact absurd h (List.cons_ne_nil p rest)

lemma min_max_scan_mem (f : Frame) :
    ∀ (l : List (ℕ × ℕ)) (acc : Option ((ℕ × ℕ) × ℚ)) (r : (ℕ × ℕ) × ℚ),
      min_max_scan f l acc = some r → r.1 ∈ l ∨ acc = some r := by
  intro l
  induction l with
  | nil =>
      intro acc r h
      exact Or.inr h
  | cons p rest ih =>
      intro acc r h
      cases acc with
      | none =>
          simp only [min_max_scan] at h
          rcases ih _ r h with hm | he
          · exact Or.inl (List.mem_cons_of_mem p hm)
          · left
            obtain ⟨rfl⟩ := Option.some.inj he
            exact List.mem_cons_self p rest
      | some qv =>
          obtain ⟨q, v⟩ := qv
          simp only [min_max_scan] at h
          rcases ih _ r h with hm | he
          · exact Or.inl (List.mem_cons_of_mem p hm)
          · by_cases hc : gray_value f p.1 p.2 > v
            · rw [if_pos hc] at he
              left
              obtain ⟨rfl⟩ := Option.some.inj he
              exact List.mem_cons_self p rest
            · rw [if_neg hc] at he
              exact Or.inr he

lemma scan_order_mem {w h : ℕ} {p : ℕ × ℕ} (hm : p ∈ scan_order w h) :
    p.1 < w ∧ p.2 < h := by
  obtain ⟨x, y⟩ := p
  simp only [scan_order, List.mem_flatMap, List.mem_map, List.mem_range] at hm
  obtain ⟨y', hy', x', hx', heq⟩ := hm
  obtain ⟨rfl, rfl⟩ := Prod.mk.injEq .. ▸ heq
  exact ⟨hx', hy'⟩

lemma scan_order_eq_nil {w h : ℕ} : scan_order w h = [] ↔ w = 0 ∨ h = 0 := by
  constructor
  · intro he
    by_contra hcon
    push_neg at hcon
    obtain ⟨hw, hh⟩ := hcon
    have hmem : ((0, 0) : ℕ × ℕ) ∈ scan_order w h := by
      simp only [scan_order, List.mem_flatMap, List.mem_map, List.mem_range]
      exact ⟨0, Nat.pos_of_ne_zero hh, 0, Nat.pos_of_ne_zero hw, rfl⟩
    rw [he] at hmem
    cases hmem
  · intro he
    rcases he with rfl | rfl
    · simp [scan_order]
    · simp [scan_order]

/-- C6: the locating step of `_find_bright_spot` fails with `EmptyFrameError`
exactly when the frame has zero area, and on every non-empty frame it
succeeds, returning an in-range pixel coordinate — there is no other error
condition. -/
theorem C6_empty_frame_error (f : Frame) :
    (find_bright_spot f = .error .emptyFrame ↔ f.width * f.height = 0)
    ∧ (f.width * f.height ≠ 0 →
        ∃ loc, find_bright_spot f = .ok loc ∧ loc.1 < f.width ∧ loc.2 < f.height) := by
  have key : min_max_loc f = none ↔ f.width = 0 ∨ f.height = 0 := by
    unfold min_max_loc
    rw [Option.map_eq_none', min_max_scan_none_iff, scan_order_eq_nil]
  constructor
  · constructor
    · intro he
      cases hm : min_max_loc f with
      | none =>
          rcases key.mp hm with h0 | h0 <;> rw [h0] <;> ring
      | some loc =>
          unfold find_bright_spot at he
          rw [hm] at he
          cases he
    · intro hz
      have hn : min_max_loc f = none := key.mpr (Nat.mul_eq_zero.mp hz)
      unfold find_bright_spot
      rw [hn]
  · intro hz
    cases hm : min_max_loc f with
    | none =>
        have := key.mp hm
        exact absurd (Nat.mul_eq_zero.mpr this) hz
    | some loc =>
        refine ⟨loc, ?_, ?_⟩
        · unfold find_bright_spot
          rw [hm]
        · unfold min_max_loc at hm
          obtain ⟨r, hr, hfst⟩ := Option.map_eq_some'.mp hm
          rcases min_max_scan_mem f _ none r hr with hmem | habs
          · rw [← hfst]
            exact scan_order_mem hmem
          · cases habs

/-- Witness for C6: a concrete 2×2 frame succeeds with an in-range
coordinate, and a zero-width frame fails with `EmptyFrameError`. -/
theorem C6_empty_frame_error_witness :
    (∃ loc, find_bright_spot ⟨2, 2, fun x y => (x + y, 0, 0, 0)⟩ = .ok loc ∧
        loc.1 < 2 ∧ loc.2 < 2)
    ∧ find_bright_spot ⟨0, 5, fun _ _ => (0, 0, 0, 0)⟩ = .error .emptyFrame :=
  ⟨(C6_empty_frame_error ⟨2, 2, fun x y => (x + y, 0, 0, 0)⟩).2 (by decide),
   (C6_empty_frame_error ⟨0, 5, fun _ _ => (0, 0, 0, 0)⟩).1.mpr (by decide)⟩

end SolarTracker
